import Mathlib

/-!
Shallow embedding of the FenixBackend CRM backend (Express + Mongoose, JS)
for formal checking of its natural-language specification.

Conventions used throughout:
* JS numbers that carry money amounts are modelled as `ℚ`; the result of
  `parseFloat` is `Option ℚ`, with `none` standing for `NaN`.
* JS string values that may be `undefined`/absent are modelled as
  `Option String`; JS truthiness of such a value is `jsTruthy` below
  (absent and the empty string are falsy, every other string truthy).
* MongoDB documents become Lean structures; a collection becomes a
  `List` of documents; `findOne` becomes `List.find?`.
* Dates are irrelevant to the verified properties; where the code stores a
  timestamp we only record that the field was populated.
-/

namespace Fenix

/-- JS truthiness of an optional string value (`undefined` and `""` are
falsy, every other string is truthy). -/
def jsTruthy : Option String → Bool
  | none => false
  | some s => s ≠ ""

/-- Digit stripping, the JS `replace(/\D/g, "")`: remove every non-digit
character.  Used by the Lead pre-save hook, the webhook controllers and
the phone search. -/
def stripNonDigits (s : String) : String :=
  ⟨s.data.filter Char.isDigit⟩

/-! ## Lead model (src/models/Lead.js) -/

/-- One entry of `leadSchema.notes`. -/
structure LeadNote where
  text : String
  photo : Option String
  adminId : Option String
  deriving Repr, DecidableEq

/-- A document of the `customers` collection (`leadSchema`).  Fields that no
verified operation reads or writes (utm fields, department, bitrixId,
timestamps) are omitted. -/
structure Lead where
  name : String
  phone : Option String
  email : Option String
  assigned : Option String
  sourceDescription : String
  originalLeadId : Option String
  status : String
  notes : List LeadNote
  normalizedPhone : Option String
  hidden : Bool
  updatedByNote : Option String
  deriving Repr, DecidableEq

/-- Pre-save hook of `leadSchema`: when the `phone` path was modified, set
`normalizedPhone` to the phone with all non-digit characters removed
(`this.phone.replace(/\D/g, "")`).  `phoneModified` is the Mongoose flag
`this.isModified("phone")`. -/
def leadPreSave (lead : Lead) (phoneModified : Bool) : Lead :=
  if phoneModified then
    { lead with normalizedPhone := some (stripNonDigits (lead.phone.getD "")) }
  else
    lead

/-- Saving a lead document whose `phone` path is modified (in particular any
freshly created lead that supplies a phone) runs the pre-save hook. -/
def leadSaveWithPhone (lead : Lead) : Lead :=
  leadPreSave lead true

/-! ## Notes route (src/routes/leads/notesRoutes.js, POST /:id/notes) -/

/-- Response shape: HTTP status code plus the `success` flag of the JSON
body. -/
structure Resp where
  status : Nat
  success : Bool
  deriving Repr, DecidableEq

/-- Handler for `POST /:id/notes` after the lead was found (`Lead.findById`
succeeded).
`text`, `note`, `photo` are the raw body fields; `noteText = text || note`.
If neither `noteText` nor `photo` is truthy the request is rejected with
400 and the lead is untouched; otherwise a note `{text: noteText or "",
photo, adminId: adminId or req.admin._id}` is pushed and
`updatedByNote` becomes the note text, defaulted to "Додано фото". -/
def addNoteHandler (lead : Lead) (text note photo adminIdBody : Option String)
    (reqAdminId : String) : Resp × Lead :=
  let noteText : Option String := if jsTruthy text then text else note
  if ¬ (jsTruthy noteText ∨ jsTruthy photo) then
    (⟨400, false⟩, lead)
  else
    let newNote : LeadNote :=
      { text := if jsTruthy noteText then noteText.getD "" else ""
        photo := photo
        adminId := if jsTruthy adminIdBody then adminIdBody else some reqAdminId }
    let lead' :=
      { lead with
          notes := lead.notes ++ [newNote]
          updatedByNote :=
            some (if jsTruthy noteText then noteText.getD "" else "Додано фото") }
    (⟨200, true⟩, lead')

/-! ## Leads filter builder (src/utils/leadHelpers.js:
`applyRoleBasedFilter`, `applyAssignedFilter`, `applyTeamFilter`) -/

/-- The `assigned` field of the MongoDB filter object under construction:
absent, a single identifier (`filter.assigned = id`), or an `$in` list
(`filter.assigned = { $in: ids }`). -/
inductive AssignedFilter where
  | absent
  | eqId (id : String)
  | inIds (ids : List String)
  deriving Repr, DecidableEq

/-- JS truthiness of `filter.assigned`: absent is falsy, a string is truthy
iff nonempty, an object (the `$in` form) is always truthy. -/
def AssignedFilter.truthy : AssignedFilter → Bool
  | .absent => false
  | .eqId id => id ≠ ""
  | .inIds _ => true

/-- The caller context `{userRole, userId, userTeam}` extracted from the
query by `buildLeadsFilter`. -/
structure RoleCtx where
  userRole : Option String
  userId : Option String
  userTeam : Option String
  deriving Repr, DecidableEq

/-- Role scoping `applyRoleBasedFilter(filter, {userRole, userId,
userTeam})`.  Here `teamMembers` stands for the awaited result of
`Admin.find({team: userTeam}, "_id")` mapped to id strings: `.ok ids` on
success, `.error ()` when the lookup throws (the catch branch falls back
to `filter.assigned = userId`). -/
def applyRoleBasedFilter (f : AssignedFilter) (ctx : RoleCtx)
    (teamMembers : Except Unit (List String)) : AssignedFilter :=
  if ¬ jsTruthy ctx.userRole ∨ ¬ jsTruthy ctx.userId then f
  else
    let uid := ctx.userId.getD ""
    -- Team Fantom restriction: all members can only see their own leads
    if ctx.userTeam = some "Team Fantom" then .eqId uid
    else if ctx.userRole = some "Manager" ∨ ctx.userRole = some "Reten" then
      .eqId uid
    else if ctx.userRole = some "TeamLead" ∧ jsTruthy ctx.userTeam then
      match teamMembers with
      | .ok ids => .inIds (ids ++ [uid])
      | .error _ => .eqId uid
    else f

/-- The raw `assigned` query parameter: absent/undefined, an array of
values, or a single string. -/
inductive AssignedParam where
  | absent
  | arr (ids : List String)
  | str (s : String)
  deriving Repr, DecidableEq

/-- JS truthiness of the raw `assigned` parameter (an array is truthy even
when empty; a string is truthy iff nonempty). -/
def AssignedParam.truthy : AssignedParam → Bool
  | .absent => false
  | .arr _ => true
  | .str s => s ≠ ""

/-- The `assignedIds` list computed at the top of `applyAssignedFilter`:
arrays are taken as-is, a comma-separated string is split, trimmed and
filtered for nonemptiness, any other value becomes a singleton. -/
def parseAssignedIds : AssignedParam → List String
  | .absent => []
  | .arr ids => ids
  | .str s =>
      if s.data.contains ',' then
        ((s.splitOn ",").map String.trim).filter (fun id => id ≠ "")
      else [s]

/-- Assigned-parameter filtering `applyAssignedFilter(filter, assigned,
userRole)`: for a TeamLead whose
filter already carries an `$in` allow-list the requested ids are
intersected with it (empty intersection yields `$in: []`); a still-absent
filter is set from the requested ids; otherwise the existing filter is
kept. -/
def applyAssignedFilter (f : AssignedFilter) (assigned : AssignedParam)
    (userRole : Option String) : AssignedFilter :=
  if ¬ assigned.truthy then f
  else
    let assignedIds := parseAssignedIds assigned
    match f with
    | .inIds teamMemberIds =>
        if userRole = some "TeamLead" then
          .inIds (assignedIds.filter (fun id => teamMemberIds.contains id))
        else if ¬ AssignedFilter.truthy (.inIds teamMemberIds) then
          (match assignedIds with
           | [a] => .eqId a
           | _ => .inIds assignedIds)
        else .inIds teamMemberIds
    | g =>
        if ¬ g.truthy then
          match assignedIds with
          | [a] => .eqId a
          | _ => .inIds assignedIds
        else g

/-- Team filtering `applyTeamFilter(filter, team)`, restricted to its
effect on the
`assigned` field.  `teamPresent` is the truthiness of the `team` query
parameter; `resolved` stands for the awaited team-member resolution
(Teams collection first, then the legacy `Admin.team` string field),
`.error ()` for the catch branch.  An empty member list, like a lookup
failure, degrades to the empty-result filter `$in: []`. -/
def applyTeamFilter (f : AssignedFilter) (teamPresent : Bool)
    (resolved : Except Unit (List String)) : AssignedFilter :=
  if ¬ teamPresent then f
  else
    match resolved with
    | .error _ => .inIds []
    | .ok teamMemberIds =>
        if teamMemberIds = [] then .inIds []
        else
          match f with
          | .inIds ids =>
              .inIds (ids.filter (fun id => teamMemberIds.contains id))
          | .eqId id =>
              if id ≠ "" then
                (if teamMemberIds.contains id then .eqId id else .inIds [])
              else .inIds teamMemberIds
          | .absent => .inIds teamMemberIds

/-- Semantics of the built filter on the `assigned` field of a lead:
`{assigned: id}` matches documents whose `assigned` equals `id`,
`{assigned: {$in: ids}}` matches documents whose `assigned` is listed, an
absent constraint matches everything. -/
def matchesAssigned (f : AssignedFilter) (leadAssigned : Option String) : Bool :=
  match f with
  | .absent => true
  | .eqId id => leadAssigned = some id
  | .inIds ids =>
      match leadAssigned with
      | some a => ids.contains a
      | none => false

/-- The `assigned`-relevant part of `buildLeadsFilter`: the filter starts
with no `assigned` constraint, then `applyRoleBasedFilter`,
`applyAssignedFilter` and `applyTeamFilter` run in that order. -/
def buildAssignedConstraint (ctx : RoleCtx)
    (roleTeamMembers : Except Unit (List String)) (assigned : AssignedParam)
    (teamPresent : Bool) (teamResolved : Except Unit (List String)) :
    AssignedFilter :=
  applyTeamFilter
    (applyAssignedFilter
      (applyRoleBasedFilter .absent ctx roleTeamMembers)
      assigned ctx.userRole)
    teamPresent teamResolved

/-! ## Lot model (src/models/Lot.js)

Money amounts are JS numbers, modelled as `ℚ`; `parseFloat` results are
`Option ℚ` with `none` for `NaN`.  Timestamp fields only record whether
they were populated. -/

/-- One entry of `lotSchema.amountHistory`. -/
structure AmountHistoryEntry where
  previousAmount : ℚ
  newAmount : ℚ
  editedBy : String
  reason : String
  deriving Repr, DecidableEq

/-- A document of the Lot collection (`lotSchema`).  The denormalized lead
snapshot fields and `lotDate` play no role in the verified properties and
are omitted. -/
structure Lot where
  id : String
  lotName : String
  amount : ℚ
  leadId : String
  assignedTo : String
  team : Option String
  amountHistory : List AmountHistoryEntry
  status : String
  payoutAmount : Option ℚ
  isPaid : Bool
  isDeleted : Bool
  deletedAtSet : Bool
  deletedBy : Option String
  deriving Repr, DecidableEq

/-- Pre-save hook of `lotSchema`: a save whose `amount` path is modified
fails when the amount is negative (`amountModified` is
`this.isModified("amount")`). -/
def lotPreSaveCheck (l : Lot) (amountModified : Bool) : Except String Lot :=
  if amountModified ∧ l.amount < 0 then
    .error "Сумма не может быть отрицательной"
  else .ok l

/-- Instance method `lotSchema.methods.updateAmount`: refuse an unchanged
amount, push the
history entry recording the pre-update value, set the new amount, then
save (which runs the pre-save check with the amount path modified). -/
def Lot.updateAmount (l : Lot) (newAmount : ℚ) (editedBy : String)
    (reason : String) : Except String Lot :=
  if l.amount = newAmount then .error "Новая сумма совпадает с текущей"
  else
    lotPreSaveCheck
      { l with
          amountHistory := l.amountHistory ++
            [{ previousAmount := l.amount, newAmount := newAmount,
               editedBy := editedBy, reason := reason }]
          amount := newAmount }
      true

/-- Instance method `lotSchema.methods.softDelete` (its save does not
modify the amount
path, so the pre-save check passes). -/
def Lot.softDelete (l : Lot) (deletedBy : String) : Lot :=
  { l with isDeleted := true, deletedAtSet := true,
           deletedBy := some deletedBy, status := "ARCHIVED" }

/-- Instance method `lotSchema.methods.restore`. -/
def Lot.restore (l : Lot) : Lot :=
  { l with isDeleted := false, deletedAtSet := false,
           deletedBy := none, status := "ACTIVE" }

/-- The payout mutation of `LotController.updateLotPayout`: each of
`payoutAmount` and `isPaid` is updated only when supplied. -/
def Lot.updatePayout (l : Lot) (payout : Option ℚ) (paid : Option Bool) :
    Lot :=
  { l with
      payoutAmount := match payout with
        | some p => some p
        | none => l.payoutAmount
      isPaid := match paid with
        | some b => b
        | none => l.isPaid }

/-! ## Lot controller (`LotController`, src/unnamed/part_004)

The handlers run inside a MongoDB session transaction: the lot is fetched
with `.session(session)`, so its `save()` joins the transaction, and the
`LeadsHistory` document is saved with `{ session }`.  Buffered writes
become visible only at `commitTransaction`; every early `return` and the
`catch` branch run `abortTransaction`, discarding them.  External write
failures (the persistence layer erroring on an awaited `save`) are
injected through a `WriteFaults` oracle. -/

/-- A LeadsHistory audit document.  The free-text `description` string is
omitted; the metadata amounts are kept. -/
structure HistoryEntry where
  leadId : String
  actionType : String
  adminId : String
  previousAmount : Option ℚ
  newAmount : Option ℚ
  amount : Option ℚ
  deriving Repr, DecidableEq

/-- The two persisted collections the Lot handlers touch. -/
structure DB where
  lots : List Lot
  history : List HistoryEntry
  deriving Repr, DecidableEq

/-- Query `Lot.findOne({ _id: id, isDeleted: false })`. -/
def DB.findActiveLot (db : DB) (id : String) : Option Lot :=
  db.lots.find? (fun l => l.id == id && !l.isDeleted)

/-- Committing the transaction publishes the buffered writes: the mutated
lot replaces the stored document with the same id and the history entry
is appended. -/
def DB.commitLotWrite (db : DB) (lot' : Lot) (e : HistoryEntry) : DB :=
  { lots := db.lots.map (fun l => if l.id = lot'.id then lot' else l)
    history := db.history ++ [e] }

/-- Failure oracle for the two awaited writes inside the transaction; a
failed write throws, landing in the catch branch that aborts the
transaction. -/
structure WriteFaults where
  lotSaveFails : Bool
  historySaveFails : Bool
  deriving Repr, DecidableEq

/-- Request data for `LotController.updateLotAmount`: `idValid` is
`mongoose.Types.ObjectId.isValid(id)`, `amountTruthy` the JS truthiness
of `req.body.amount`, `parsedAmount` the `parseFloat(amount)` result
(`none` for `NaN`). -/
structure UpdateAmountReq where
  id : String
  idValid : Bool
  amountTruthy : Bool
  parsedAmount : Option ℚ
  reason : Option String
  adminId : String
  adminRole : String
  deriving Repr, DecidableEq

/-- Handler `LotController.updateLotAmount`, returning the response
together with
the database state after the transaction committed or aborted. -/
def updateLotAmountHandler (db : DB) (req : UpdateAmountReq)
    (fl : WriteFaults) : Resp × DB :=
  if ¬ req.idValid then (⟨400, false⟩, db)
  else if ¬ req.amountTruthy then (⟨400, false⟩, db)
  else
    match req.parsedAmount with
    | none => (⟨400, false⟩, db)
    | some q =>
      if q < 0 then (⟨400, false⟩, db)
      else
        match db.findActiveLot req.id with
        | none => (⟨404, false⟩, db)
        | some lot =>
          if (req.adminRole = "Reten" ∨ req.adminRole = "Manager") ∧
              lot.assignedTo ≠ req.adminId then
            (⟨403, false⟩, db)
          else if lot.amount = q then (⟨400, false⟩, db)
          else if fl.lotSaveFails then (⟨500, false⟩, db)
          else
            match lot.updateAmount q req.adminId (req.reason.getD "") with
            | .error _ => (⟨500, false⟩, db)
            | .ok lot' =>
              if fl.historySaveFails then (⟨500, false⟩, db)
              else
                (⟨200, true⟩, db.commitLotWrite lot'
                  { leadId := lot.leadId,
                    actionType := "LOT_AMOUNT_UPDATED",
                    adminId := req.adminId,
                    previousAmount := some lot.amount,
                    newAmount := some q, amount := none })

/-- Request data for `LotController.deleteLot`. -/
structure DeleteLotReq where
  id : String
  idValid : Bool
  adminId : String
  adminRole : String
  deriving Repr, DecidableEq

/-- Handler `LotController.deleteLot` (soft delete), same transaction
discipline as
`updateLotAmountHandler`. -/
def deleteLotHandler (db : DB) (req : DeleteLotReq) (fl : WriteFaults) :
    Resp × DB :=
  if ¬ req.idValid then (⟨400, false⟩, db)
  else
    match db.findActiveLot req.id with
    | none => (⟨404, false⟩, db)
    | some lot =>
      if req.adminRole ≠ "Admin" then (⟨403, false⟩, db)
      else if fl.lotSaveFails then (⟨500, false⟩, db)
      else if fl.historySaveFails then (⟨500, false⟩, db)
      else
        (⟨200, true⟩, db.commitLotWrite (lot.softDelete req.adminId)
          { leadId := lot.leadId, actionType := "LOT_DELETED",
            adminId := req.adminId, previousAmount := none,
            newAmount := none, amount := some lot.amount })

/-- A Lot document as `LotController.createLot` constructs it once its
validation accepted the parsed amount (`isNaN(parsedAmount) ||
parsedAmount < 0` was rejected). -/
def createLotDoc (id lotName leadId assignedTo : String)
    (team : Option String) (q : ℚ) (payout : Option ℚ) (isPaid : Bool) :
    Lot :=
  { id := id, lotName := lotName, amount := q, leadId := leadId,
    assignedTo := assignedTo, team := team, amountHistory := [],
    status := "ACTIVE", payoutAmount := payout, isPaid := isPaid,
    isDeleted := false, deletedAtSet := false, deletedBy := none }

/-- Persisted Lot states reachable through the LotController operations.
The side conditions are the controller validations: creation and amount
updates only proceed with a parsed amount that is a number and
non-negative, payout updates with a non-negative payout. -/
inductive LotReachable : Lot → Prop
  | created (id lotName leadId assignedTo : String) (team : Option String)
      (q : ℚ) (payout : Option ℚ) (isPaid : Bool) (hq : 0 ≤ q) :
      LotReachable (createLotDoc id lotName leadId assignedTo team q payout
        isPaid)
  | amountUpdated {l l' : Lot} {q : ℚ} {eb r : String}
      (h : LotReachable l) (hq : 0 ≤ q)
      (hup : l.updateAmount q eb r = .ok l') : LotReachable l'
  | softDeleted {l : Lot} (h : LotReachable l) (deleter : String) :
      LotReachable (l.softDelete deleter)
  | restored {l : Lot} (h : LotReachable l) : LotReachable l.restore
  | payoutUpdated {l : Lot} (h : LotReachable l) {p : Option ℚ}
      (hp : ∀ q ∈ p, 0 ≤ q) (paid : Option Bool) :
      LotReachable (l.updatePayout p paid)

/-! ## Webhook ingestion (`handleTildaWebhook`,
src/controllers/webhookController.js; `processTildaWebhook`,
src/unnamed/part_004) -/

/-- Controller `handleTildaWebhook`: normalizes `formData.Phone`, looks
for an
existing lead via `Lead.findOne({ phone: normalizedPhone })` (note: the
raw `phone` field, not `normalizedPhone`), sets status "DUPLICATE" or the
default "UC_HSS56X" accordingly, and persists the new lead either way.
`sourceDomain` stands for the domain extracted from
`formData.source`/the referer (URL parsing is an external collaborator).
Returns the lead collection after the save and the assigned status. -/
def handleTildaWebhook (db : List Lead) (formPhone formName formEmail :
    Option String) (sourceDomain : String) : List Lead × String :=
  let normalizedPhone :=
    if jsTruthy formPhone then stripNonDigits (formPhone.getD "") else ""
  let existingLead := db.find? (fun l => l.phone == some normalizedPhone)
  let status := if existingLead.isSome then "DUPLICATE" else "UC_HSS56X"
  let lead := leadSaveWithPhone
    { name := if jsTruthy formName then formName.getD "" else "No Name"
      phone := some (if normalizedPhone ≠ "" then normalizedPhone
                     else " No Phone")
      email := some (if jsTruthy formEmail then formEmail.getD ""
                     else " No Email")
      assigned := none
      sourceDescription := sourceDomain
      originalLeadId := none
      status := status
      notes := []
      normalizedPhone := none
      hidden := false
      updatedByNote := none }
  (db ++ [lead], status)

/-- Controller `processTildaWebhook`: stores the normalized digits
directly in
`phone`, runs the same raw-`phone`-field duplicate lookup, marks
"DUPLICATE" or keeps the default "UC_HSS56X", and persists the record.
The duplicate branch additionally records the id of the matched document
in
`originalLeadId`; document ids are not part of this model, so that field
keeps its default here.  `sourceDescription` stands for the hostname
parsed from the referer header. -/
def processTildaWebhook (db : List Lead) (formPhone formName formEmail :
    Option String) (sourceDescription : String) : List Lead × String :=
  let phone := stripNonDigits (formPhone.getD "")
  let existingLead := db.find? (fun l => l.phone == some phone)
  let status := if existingLead.isSome then "DUPLICATE" else "UC_HSS56X"
  let lead := leadSaveWithPhone
    { name := if jsTruthy formName then formName.getD "" else "No Name"
      phone := some phone
      email := some (if jsTruthy formEmail then formEmail.getD ""
                     else "No Email")
      assigned := none
      sourceDescription := sourceDescription
      originalLeadId := none
      status := status
      notes := []
      normalizedPhone := none
      hidden := false
      updatedByNote := none }
  (db ++ [lead], status)

/-- A stored lead created through the normal CRUD path: the raw formatted
phone is kept in `phone` and the pre-save hook fills `normalizedPhone`
with the stripped digits. -/
def storedRawPhoneLead : Lead :=
  leadSaveWithPhone
    { name := "Old Lead", phone := some "+1 (555) 123-4567", email := none,
      assigned := none, sourceDescription := "", originalLeadId := none,
      status := "NEW", notes := [], normalizedPhone := none,
      hidden := false, updatedByNote := none }

/-- A stored lead created by the webhook path itself: the digits-only
normalized phone was stored directly in `phone`. -/
def storedWebhookLead : Lead :=
  leadSaveWithPhone
    { name := "Web Lead", phone := some "15551234567", email := none,
      assigned := none, sourceDescription := "tilda", originalLeadId := none,
      status := "UC_HSS56X", notes := [], normalizedPhone := none,
      hidden := false, updatedByNote := none }

/-! Helper lemmas about the filter pipeline (shared by several results). -/

/-- The phone normalization at the top of `handleTildaWebhook` agrees with
plain digit-stripping of the defaulted input. -/
theorem webhookNormalized_eq (p : Option String) :
    (if jsTruthy p then stripNonDigits (p.getD "") else "") =
      stripNonDigits (p.getD "") := by
  cases p with
  | none => decide
  | some s =>
      by_cases hs : s = ""
      · subst hs; decide
      · simp [jsTruthy, hs]

theorem roleFilter_fantom_or_manager (ctx : RoleCtx) (uid : String)
    (tm : Except Unit (List String))
    (hrole : jsTruthy ctx.userRole)
    (hid : ctx.userId = some uid) (huid : uid ≠ "")
    (hcase : ctx.userTeam = some "Team Fantom" ∨
      ctx.userRole = some "Manager" ∨ ctx.userRole = some "Reten") :
    applyRoleBasedFilter .absent ctx tm = .eqId uid := by
  have hidt : jsTruthy (some uid) = true := by simp [jsTruthy, huid]
  by_cases hft : ctx.userTeam = some "Team Fantom"
  · simp [applyRoleBasedFilter, hrole, hft, hid, hidt]
  · rcases hcase with h | h
    · exact absurd h hft
    · simp [applyRoleBasedFilter, hrole, hft, hid, hidt, h]

theorem assignedFilter_keeps_eqId (uid : String) (assigned : AssignedParam)
    (role : Option String) (huid : uid ≠ "") :
    applyAssignedFilter (.eqId uid) assigned role = .eqId uid := by
  unfold applyAssignedFilter
  split
  · rfl
  · simp [AssignedFilter.truthy, huid]

theorem teamFilter_eqId_cases (uid : String) (teamPresent : Bool)
    (res : Except Unit (List String)) (huid : uid ≠ "") :
    applyTeamFilter (.eqId uid) teamPresent res = .eqId uid ∨
    applyTeamFilter (.eqId uid) teamPresent res = .inIds [] := by
  by_cases htp : teamPresent = true
  · cases res with
    | error e => simp [applyTeamFilter, htp]
    | ok ms =>
        by_cases hms : ms = []
        · simp [applyTeamFilter, htp, hms]
        · by_cases hc : ms.contains uid <;>
            simp [applyTeamFilter, htp, hms, huid, hc] <;> tauto
  · simp [applyTeamFilter, htp]

theorem teamFilter_eqId_matches (uid : String) (teamPresent : Bool)
    (res : Except Unit (List String)) (la : Option String) (huid : uid ≠ "")
    (h : matchesAssigned (applyTeamFilter (.eqId uid) teamPresent res) la = true) :
    la = some uid := by
  rcases teamFilter_eqId_cases uid teamPresent res huid with hc | hc <;>
    rw [hc] at h
  · simpa [matchesAssigned] using h
  · cases la <;> simp [matchesAssigned] at h

end Fenix

/-! # Theorems -/

namespace Fenix

/-- C5: for every Lead save in which the phone field was set or changed, the
stored `normalizedPhone` equals the input phone with all non-digit
characters removed; in particular phone "+1 (555) 123-4567" yields
normalizedPhone "15551234567". -/
theorem lead_save_normalizes_phone :
    (∀ (lead : Lead) (p : String), lead.phone = some p →
      (leadSaveWithPhone lead).normalizedPhone = some (stripNonDigits p)) ∧
    stripNonDigits "+1 (555) 123-4567" = "15551234567" := by
  constructor
  · intro lead p hp
    simp [leadSaveWithPhone, leadPreSave, hp]
  · decide

/-- Witness for `lead_save_normalizes_phone`: the hook applied to a concrete
lead with phone "+1 (555) 123-4567". -/
theorem lead_save_normalizes_phone_witness :
    (leadSaveWithPhone
      { name := "Jane Doe", phone := some "+1 (555) 123-4567", email := none,
        assigned := none, sourceDescription := "", originalLeadId := none,
        status := "NEW", notes := [], normalizedPhone := none, hidden := false,
        updatedByNote := none }).normalizedPhone = some "15551234567" := by
  have h := lead_save_normalizes_phone.1
    { name := "Jane Doe", phone := some "+1 (555) 123-4567", email := none,
      assigned := none, sourceDescription := "", originalLeadId := none,
      status := "NEW", notes := [], normalizedPhone := none, hidden := false,
      updatedByNote := none } "+1 (555) 123-4567" rfl
  rw [h]
  decide

/-- C9: an add-note request with neither note text nor photo is rejected with
status 400 and the notes list is unchanged; a request with only a photo
succeeds (status 200), appends exactly one note, and sets the fallback
placeholder description "Додано фото". -/
theorem add_note_requires_text_or_photo (lead : Lead)
    (text note photo adminIdBody : Option String) (reqAdminId : String) :
    (¬ jsTruthy text → ¬ jsTruthy note → ¬ jsTruthy photo →
      addNoteHandler lead text note photo adminIdBody reqAdminId =
        (⟨400, false⟩, lead)) ∧
    (¬ jsTruthy text → ¬ jsTruthy note → jsTruthy photo →
      (addNoteHandler lead text note photo adminIdBody reqAdminId).1 =
          ⟨200, true⟩ ∧
        (addNoteHandler lead text note photo adminIdBody reqAdminId).2.notes =
          lead.notes ++
            [{ text := "", photo := photo,
               adminId := if jsTruthy adminIdBody then adminIdBody
                          else some reqAdminId }] ∧
        (addNoteHandler lead text note photo adminIdBody
            reqAdminId).2.updatedByNote = some "Додано фото") := by
  constructor
  · intro ht hn hp
    simp [addNoteHandler, ht, hn, hp]
  · intro ht hn hp
    have hnt : ¬ jsTruthy (if jsTruthy text then text else note) := by
      simp [ht, hn]
    refine ⟨?_, ?_, ?_⟩ <;> simp [addNoteHandler, hnt, hp]

/-- Witness for `add_note_requires_text_or_photo`: both branches evaluated on
a concrete lead (no text, no note; then only a photo). -/
theorem add_note_requires_text_or_photo_witness :
    addNoteHandler
        { name := "L", phone := none, email := none, assigned := none,
          sourceDescription := "", originalLeadId := none, status := "NEW",
          notes := [], normalizedPhone := none, hidden := false,
          updatedByNote := none }
        none none none none "admin1" =
      (⟨400, false⟩,
        { name := "L", phone := none, email := none, assigned := none,
          sourceDescription := "", originalLeadId := none, status := "NEW",
          notes := [], normalizedPhone := none, hidden := false,
          updatedByNote := none }) ∧
    (addNoteHandler
        { name := "L", phone := none, email := none, assigned := none,
          sourceDescription := "", originalLeadId := none, status := "NEW",
          notes := [], normalizedPhone := none, hidden := false,
          updatedByNote := none }
        none none (some "ph.jpg") none "admin1").2.updatedByNote =
      some "Додано фото" := by
  have h := add_note_requires_text_or_photo
    { name := "L", phone := none, email := none, assigned := none,
      sourceDescription := "", originalLeadId := none, status := "NEW",
      notes := [], normalizedPhone := none, hidden := false,
      updatedByNote := none }
    none none none none "admin1"
  have h2 := add_note_requires_text_or_photo
    { name := "L", phone := none, email := none, assigned := none,
      sourceDescription := "", originalLeadId := none, status := "NEW",
      notes := [], normalizedPhone := none, hidden := false,
      updatedByNote := none }
    none none (some "ph.jpg") none "admin1"
  exact ⟨h.1 (by decide) (by decide) (by decide),
         (h2.2 (by decide) (by decide) (by decide)).2.2⟩

/-- C2: for a Manager- or Reten-role caller with an identifier, the filter
built by `applyRoleBasedFilter` followed by `applyAssignedFilter` pins
`assigned` to exactly the identifier of the caller whatever `assigned`
parameter the caller supplies, and after the whole `assigned`-relevant
pipeline (including `applyTeamFilter`) every lead matching the filter has
`assigned` equal to the identifier of the caller. -/
theorem manager_reten_sees_only_own_leads (ctx : RoleCtx) (uid : String)
    (roleTM teamTM : Except Unit (List String)) (assigned : AssignedParam)
    (teamPresent : Bool)
    (hrole : ctx.userRole = some "Manager" ∨ ctx.userRole = some "Reten")
    (hid : ctx.userId = some uid) (huid : uid ≠ "") :
    applyAssignedFilter (applyRoleBasedFilter .absent ctx roleTM) assigned
        ctx.userRole = .eqId uid ∧
    ∀ la, matchesAssigned
        (buildAssignedConstraint ctx roleTM assigned teamPresent teamTM)
        la = true → la = some uid := by
  have hroleT : jsTruthy ctx.userRole := by
    rcases hrole with h | h <;> simp [jsTruthy, h]
  have h1 : applyRoleBasedFilter .absent ctx roleTM = .eqId uid :=
    roleFilter_fantom_or_manager ctx uid roleTM hroleT hid huid (Or.inr hrole)
  have h2 : applyAssignedFilter (AssignedFilter.eqId uid) assigned
      ctx.userRole = .eqId uid :=
    assignedFilter_keeps_eqId uid assigned ctx.userRole huid
  refine ⟨by rw [h1, h2], ?_⟩
  intro la hla
  unfold buildAssignedConstraint at hla
  rw [h1, h2] at hla
  exact teamFilter_eqId_matches uid teamPresent teamTM la huid hla

/-- Witness for `manager_reten_sees_only_own_leads`: a Manager "u1"
supplying `assigned=u2` still gets the filter `{assigned: "u1"}`. -/
theorem manager_reten_sees_only_own_leads_witness :
    applyAssignedFilter
        (applyRoleBasedFilter .absent
          ⟨some "Manager", some "u1", some "Alpha"⟩ (.ok []))
        (.str "u2") (some "Manager") = .eqId "u1" :=
  (manager_reten_sees_only_own_leads
    ⟨some "Manager", some "u1", some "Alpha"⟩ "u1" (.ok []) (.ok [])
    (.str "u2") false (Or.inl rfl) rfl (by decide)).1

/-- C3: for a TeamLead-role caller with a team (not "Team Fantom") whose
member lookup returns `ms`, the identifiers allowed by the `assigned`
filter after `applyRoleBasedFilter` and `applyAssignedFilter` form a
subset of `ms ++ [uid]`; a supplied `assigned` parameter is intersected
with that allow-list, and supplying only non-member identifiers yields
the empty-result filter `$in: []`. -/
theorem teamlead_assigned_subset_of_team (ctx : RoleCtx) (uid : String)
    (ms : List String) (assigned : AssignedParam)
    (hrole : ctx.userRole = some "TeamLead")
    (hid : ctx.userId = some uid) (huid : uid ≠ "")
    (hteam : jsTruthy ctx.userTeam)
    (hft : ctx.userTeam ≠ some "Team Fantom") :
    (∀ x, matchesAssigned
        (applyAssignedFilter
          (applyRoleBasedFilter .absent ctx (.ok ms)) assigned ctx.userRole)
        (some x) = true → x ∈ ms ++ [uid]) ∧
    (assigned.truthy = true →
      applyAssignedFilter
          (applyRoleBasedFilter .absent ctx (.ok ms)) assigned ctx.userRole =
        .inIds ((parseAssignedIds assigned).filter
          (fun id => (ms ++ [uid]).contains id))) ∧
    (assigned.truthy = true →
      (∀ x ∈ parseAssignedIds assigned, ¬ (ms ++ [uid]).contains x) →
      applyAssignedFilter
          (applyRoleBasedFilter .absent ctx (.ok ms)) assigned ctx.userRole =
        .inIds []) := by
  have hidt : jsTruthy (some uid) = true := by simp [jsTruthy, huid]
  have hroleT : jsTruthy (some "TeamLead") = true := by decide
  have h1 : applyRoleBasedFilter .absent ctx (.ok ms) =
      .inIds (ms ++ [uid]) := by
    simp [applyRoleBasedFilter, hrole, hid, hroleT, hidt, hteam, hft]
  have h2 : assigned.truthy = true →
      applyAssignedFilter (AssignedFilter.inIds (ms ++ [uid])) assigned
          ctx.userRole =
        .inIds ((parseAssignedIds assigned).filter
          (fun id => (ms ++ [uid]).contains id)) := by
    intro ht
    simp [applyAssignedFilter, ht, hrole]
  refine ⟨?_, ?_, ?_⟩
  · intro x hx
    rw [h1] at hx
    by_cases ht : assigned.truthy
    · rw [h2 ht] at hx
      simp only [matchesAssigned] at hx
      have hx' : x ∈ (parseAssignedIds assigned).filter
          (fun id => (ms ++ [uid]).contains id) := by simpa using hx
      have hmem := (List.mem_filter.mp hx').2
      simpa using hmem
    · unfold applyAssignedFilter at hx
      rw [if_pos (by simpa using ht)] at hx
      simpa [matchesAssigned] using hx
  · intro ht
    rw [h1]
    exact h2 ht
  · intro ht hnone
    rw [h1, h2 ht]
    congr 1
    exact List.filter_eq_nil_iff.mpr (by
      intro x hx
      simpa using hnone x hx)

/-- Witness for `teamlead_assigned_subset_of_team`: TeamLead "lead1" of
team Alpha = {m1, m2} requesting `assigned=outsider` gets the
empty-result filter `$in: []`. -/
theorem teamlead_assigned_subset_of_team_witness :
    applyAssignedFilter
        (applyRoleBasedFilter .absent
          ⟨some "TeamLead", some "lead1", some "Alpha"⟩ (.ok ["m1", "m2"]))
        (.str "outsider") (some "TeamLead") = .inIds [] := by
  have h := teamlead_assigned_subset_of_team
    ⟨some "TeamLead", some "lead1", some "Alpha"⟩ "lead1" ["m1", "m2"]
    (.str "outsider") rfl rfl (by decide) (by decide) (by decide)
  exact h.2.2 (by decide) (by decide)

/-- C8: a caller whose team is the literal "Team Fantom" gets
`assigned = userId` from `applyRoleBasedFilter` regardless of role, and a
supplied `assigned` parameter cannot change it. -/
theorem team_fantom_forces_self_only (ctx : RoleCtx) (uid : String)
    (tm : Except Unit (List String)) (assigned : AssignedParam)
    (hft : ctx.userTeam = some "Team Fantom")
    (hrole : jsTruthy ctx.userRole)
    (hid : ctx.userId = some uid) (huid : uid ≠ "") :
    applyRoleBasedFilter .absent ctx tm = .eqId uid ∧
    applyAssignedFilter (applyRoleBasedFilter .absent ctx tm) assigned
      ctx.userRole = .eqId uid := by
  have h1 := roleFilter_fantom_or_manager ctx uid tm hrole hid huid
    (Or.inl hft)
  refine ⟨h1, ?_⟩
  rw [h1]
  exact assignedFilter_keeps_eqId uid assigned ctx.userRole huid

/-- Witness for `team_fantom_forces_self_only`: a TeamLead of Team Fantom
supplying `assigned=m1` still gets `{assigned: "tl1"}`. -/
theorem team_fantom_forces_self_only_witness :
    applyAssignedFilter
        (applyRoleBasedFilter .absent
          ⟨some "TeamLead", some "tl1", some "Team Fantom"⟩ (.ok ["m1"]))
        (.str "m1") (some "TeamLead") = .eqId "tl1" :=
  (team_fantom_forces_self_only
    ⟨some "TeamLead", some "tl1", some "Team Fantom"⟩ "tl1" (.ok ["m1"])
    (.str "m1") rfl (by decide) rfl (by decide)).2

/-- C1: the Lot amount-update and Lot soft-delete handlers are atomic with
their LeadsHistory write: whatever the inputs and whichever awaited write
fails, either the database is left exactly as it was (transaction
aborted), or the response is the 200 success and the database holds both
the mutated lot and the appended history entry (transaction committed). -/
theorem lot_mutations_atomic (db : DB) (req : UpdateAmountReq)
    (dreq : DeleteLotReq) (fl fl' : WriteFaults) :
    ((updateLotAmountHandler db req fl).2 = db ∨
      ∃ lot' e, updateLotAmountHandler db req fl =
        (⟨200, true⟩, db.commitLotWrite lot' e)) ∧
    ((deleteLotHandler db dreq fl').2 = db ∨
      ∃ lot' e, deleteLotHandler db dreq fl' =
        (⟨200, true⟩, db.commitLotWrite lot' e)) := by
  constructor
  · unfold updateLotAmountHandler
    repeat' split
    all_goals try exact Or.inl rfl
    all_goals exact Or.inr ⟨_, _, rfl⟩
  · unfold deleteLotHandler
    repeat' split
    all_goals try exact Or.inl rfl
    all_goals exact Or.inr ⟨_, _, rfl⟩

/-- C6: an amount update with a differing (validated non-negative) amount
appends exactly one history entry `{previousAmount: old, newAmount}` and
sets the amount; the 1000 → 1500 → 1200 scenario leaves two ordered
entries and amount 1200. -/
theorem lot_update_amount_spec (l : Lot) (q : ℚ) (eb r : String)
    (hne : q ≠ l.amount) (hq : 0 ≤ q) :
    l.updateAmount q eb r =
      .ok { l with
              amountHistory := l.amountHistory ++
                [{ previousAmount := l.amount, newAmount := q,
                   editedBy := eb, reason := r }]
              amount := q } ∧
    (l.amount = 1000 → l.amountHistory = [] →
      ∃ l1 l2, l.updateAmount 1500 eb r = .ok l1 ∧
        l1.updateAmount 1200 eb r = .ok l2 ∧
        l2.amountHistory =
          [{ previousAmount := 1000, newAmount := 1500, editedBy := eb,
             reason := r },
           { previousAmount := 1500, newAmount := 1200, editedBy := eb,
             reason := r }] ∧
        l2.amount = 1200) := by
  have key : ∀ (m : Lot) (p : ℚ), p ≠ m.amount → 0 ≤ p →
      m.updateAmount p eb r =
        .ok { m with
                amountHistory := m.amountHistory ++
                  [{ previousAmount := m.amount, newAmount := p,
                     editedBy := eb, reason := r }]
                amount := p } := by
    intro m p hne' hp
    unfold Lot.updateAmount lotPreSaveCheck
    rw [if_neg (fun h => hne' h.symm), if_neg]
    intro hcon
    exact absurd hcon.2 (not_lt.mpr hp)
  refine ⟨key l q hne hq, ?_⟩
  intro h1000 hhist
  refine ⟨_, _, key l 1500 (by rw [h1000]; norm_num) (by norm_num),
    key _ 1200 (show (1200 : ℚ) ≠ 1500 by norm_num) (by norm_num), ?_, rfl⟩
  simp [hhist, h1000]

/-- Witness for `lot_update_amount_spec`: the scenario run on a concrete
lot with amount 1000 and empty history. -/
theorem lot_update_amount_spec_witness :
    ∃ l1 l2,
      Lot.updateAmount
        { id := "lot1", lotName := "Deal", amount := 1000, leadId := "lead1",
          assignedTo := "mgr1", team := none, amountHistory := [],
          status := "ACTIVE", payoutAmount := none, isPaid := false,
          isDeleted := false, deletedAtSet := false, deletedBy := none }
        1500 "admin1" "" = .ok l1 ∧
      l1.updateAmount 1200 "admin1" "" = .ok l2 ∧
      l2.amountHistory =
        [{ previousAmount := 1000, newAmount := 1500, editedBy := "admin1",
           reason := "" },
         { previousAmount := 1500, newAmount := 1200, editedBy := "admin1",
           reason := "" }] ∧
      l2.amount = 1200 :=
  (lot_update_amount_spec
    { id := "lot1", lotName := "Deal", amount := 1000, leadId := "lead1",
      assignedTo := "mgr1", team := none, amountHistory := [],
      status := "ACTIVE", payoutAmount := none, isPaid := false,
      isDeleted := false, deletedAtSet := false, deletedBy := none }
    1500 "admin1" "" (by norm_num) (by norm_num)).2 rfl rfl

/-- C7: an amount update whose new amount equals the current amount is
rejected: the instance method throws, and the controller answers 400
leaving the database (hence `amountHistory` and `amount`) unchanged. -/
theorem lot_same_amount_update_rejected (db : DB) (req : UpdateAmountReq)
    (fl : WriteFaults) (lot : Lot)
    (hfind : db.findActiveLot req.id = some lot)
    (hidv : req.idValid = true) (hat : req.amountTruthy = true)
    (hpa : req.parsedAmount = some lot.amount) (hnn : 0 ≤ lot.amount)
    (hacc : ¬ ((req.adminRole = "Reten" ∨ req.adminRole = "Manager") ∧
      lot.assignedTo ≠ req.adminId)) :
    (∀ eb r, lot.updateAmount lot.amount eb r =
      .error "Новая сумма совпадает с текущей") ∧
    updateLotAmountHandler db req fl = (⟨400, false⟩, db) := by
  constructor
  · intro eb r
    unfold Lot.updateAmount
    rw [if_pos rfl]
  · simp [updateLotAmountHandler, hidv, hat, hpa, hfind, hacc,
      not_lt.mpr hnn]

/-- Witness for `lot_same_amount_update_rejected`: an Admin submitting the
current lot amount 500 gets a 400 and an untouched database. -/
theorem lot_same_amount_update_rejected_witness :
    updateLotAmountHandler
        ⟨[{ id := "lot1", lotName := "Deal", amount := 500,
            leadId := "lead1", assignedTo := "mgr1", team := none,
            amountHistory := [], status := "ACTIVE", payoutAmount := none,
            isPaid := false, isDeleted := false, deletedAtSet := false,
            deletedBy := none }], []⟩
        ⟨"lot1", true, true, some 500, none, "admin1", "Admin"⟩
        ⟨false, false⟩ =
      (⟨400, false⟩,
        ⟨[{ id := "lot1", lotName := "Deal", amount := 500,
            leadId := "lead1", assignedTo := "mgr1", team := none,
            amountHistory := [], status := "ACTIVE", payoutAmount := none,
            isPaid := false, isDeleted := false, deletedAtSet := false,
            deletedBy := none }], []⟩) :=
  (lot_same_amount_update_rejected
    ⟨[{ id := "lot1", lotName := "Deal", amount := 500,
        leadId := "lead1", assignedTo := "mgr1", team := none,
        amountHistory := [], status := "ACTIVE", payoutAmount := none,
        isPaid := false, isDeleted := false, deletedAtSet := false,
        deletedBy := none }], []⟩
    ⟨"lot1", true, true, some 500, none, "admin1", "Admin"⟩
    ⟨false, false⟩
    { id := "lot1", lotName := "Deal", amount := 500, leadId := "lead1",
      assignedTo := "mgr1", team := none, amountHistory := [],
      status := "ACTIVE", payoutAmount := none, isPaid := false,
      isDeleted := false, deletedAtSet := false, deletedBy := none }
    (by decide) rfl rfl rfl (by norm_num) (by simp)).2

/-- C10: every persisted Lot state reachable through the controller
operations has a non-negative amount. -/
theorem lot_amount_nonneg_invariant (l : Lot) (h : LotReachable l) :
    0 ≤ l.amount := by
  induction h with
  | created id lotName leadId assignedTo team q payout isPaid hq =>
      simpa [createLotDoc] using hq
  | amountUpdated h hq hup ih =>
      unfold Lot.updateAmount lotPreSaveCheck at hup
      split at hup
      · exact absurd hup (by simp)
      · split at hup
        · exact absurd hup (by simp)
        · cases hup
          simpa using hq
  | softDeleted h deleter ih => simpa [Lot.softDelete] using ih
  | restored h ih => simpa [Lot.restore] using ih
  | payoutUpdated h hp paid ih => simpa [Lot.updatePayout] using ih

/-- C4, counterexample: a lead stored with a raw formatted phone carries
normalizedPhone "15551234567", yet a webhook submission of the same
number is NOT marked "DUPLICATE" by either controller, because the
duplicate lookup queries the raw `phone` field
(`Lead.findOne({ phone: normalizedPhone })`), not `normalizedPhone`. -/
theorem webhook_duplicate_check_misses_normalized_phone :
    storedRawPhoneLead.normalizedPhone =
      some (stripNonDigits "+1 (555) 123-4567") ∧
    (handleTildaWebhook [storedRawPhoneLead] (some "+1 (555) 123-4567")
      none none "landing.example").2 ≠ "DUPLICATE" ∧
    (processTildaWebhook [storedRawPhoneLead] (some "+1 (555) 123-4567")
      none none "landing.example").2 ≠ "DUPLICATE" := by
  decide

/-- C4, amended: the duplicate check compares the normalized submitted
phone against the raw `phone` field of existing leads.  When the `phone`
of some stored lead equals the stripped digits of the submitted phone,
both webhook
controllers assign the literal status "DUPLICATE"; otherwise the default
"UC_HSS56X"; in every case the record is persisted, so the lead count
grows by one. -/
theorem webhook_duplicate_on_raw_phone_match (db : List Lead)
    (p n e : Option String) (src : String) :
    ((db.find? (fun l =>
        l.phone == some (stripNonDigits (p.getD "")))).isSome = true →
      (handleTildaWebhook db p n e src).2 = "DUPLICATE" ∧
      (processTildaWebhook db p n e src).2 = "DUPLICATE") ∧
    ((db.find? (fun l =>
        l.phone == some (stripNonDigits (p.getD "")))).isSome = false →
      (handleTildaWebhook db p n e src).2 = "UC_HSS56X" ∧
      (processTildaWebhook db p n e src).2 = "UC_HSS56X") ∧
    (handleTildaWebhook db p n e src).1.length = db.length + 1 ∧
    (processTildaWebhook db p n e src).1.length = db.length + 1 := by
  have h1 : (handleTildaWebhook db p n e src).2 =
      (if (db.find? (fun l =>
          l.phone == some (stripNonDigits (p.getD "")))).isSome then
        "DUPLICATE" else "UC_HSS56X") := by
    simp [handleTildaWebhook, webhookNormalized_eq]
  have h2 : (processTildaWebhook db p n e src).2 =
      (if (db.find? (fun l =>
          l.phone == some (stripNonDigits (p.getD "")))).isSome then
        "DUPLICATE" else "UC_HSS56X") := by
    simp [processTildaWebhook]
  refine ⟨fun h => ⟨?_, ?_⟩, fun h => ⟨?_, ?_⟩, ?_, ?_⟩
  · rw [h1, if_pos h]
  · rw [h2, if_pos h]
  · rw [h1, if_neg (by simp [h])]
  · rw [h2, if_neg (by simp [h])]
  · simp [handleTildaWebhook]
  · simp [processTildaWebhook]

/-- Witness for `webhook_duplicate_on_raw_phone_match`: against a store
holding a webhook-created lead with phone "15551234567", submitting
"+1 (555) 123-4567" yields status "DUPLICATE" and two stored leads. -/
theorem webhook_duplicate_on_raw_phone_match_witness :
    (handleTildaWebhook [storedWebhookLead] (some "+1 (555) 123-4567")
      none none "landing.example").2 = "DUPLICATE" ∧
    (handleTildaWebhook [storedWebhookLead] (some "+1 (555) 123-4567")
      none none "landing.example").1.length = 2 := by
  have h := webhook_duplicate_on_raw_phone_match [storedWebhookLead]
    (some "+1 (555) 123-4567") none none "landing.example"
  exact ⟨(h.1 (by decide)).1, by rw [h.2.2.1]; rfl⟩

/-- Witness for `lot_amount_nonneg_invariant`: a lot created with amount
250, soft-deleted and restored, still has a non-negative amount. -/
theorem lot_amount_nonneg_invariant_witness :
    0 ≤ ((createLotDoc "lot1" "Deal" "lead1" "mgr1" none 250 none
      false).softDelete "admin1").restore.amount :=
  lot_amount_nonneg_invariant _
    (LotReachable.restored
      (LotReachable.softDeleted
        (LotReachable.created "lot1" "Deal" "lead1" "mgr1" none 250 none
          false (by norm_num))
        "admin1"))

end Fenix
